import Mathlib

/-!
Shallow embedding of `inventree_printer_plugin/plugin.py`
(InvenTree DevTerm CUPS label printer plugin).

Python dictionaries are modelled as association lists with in-place
update (insertion order preserved, later writes overwrite in place);
Python floats are modelled as exact rationals; Python byte strings are
modelled as `String` where a byte-level regex is involved and as
`List Nat` where they are opaque payload data.

Rational arithmetic is expressed through `mkRat`-based helpers
(`qsub`, `qmul`, `qdivNat`, ...) so that every definition evaluates
inside the kernel; bridge lemmas relate them to the ordinary field
operations on `ℚ`.
-/

set_option maxRecDepth 8000

namespace DevtermPlugin

/-- A Python value that can appear as an IPP job-attribute value:
string, integer or boolean (see `_parse_job_options` / `_feed_options`). -/
inductive Value where
  | str (s : String)
  | int (n : ℤ)
  | bool (b : Bool)
  deriving DecidableEq, Repr

/-- A Python `dict[str, object]` as an insertion-ordered association list. -/
abbrev Dict := List (String × Value)

/-- Python `d[k] = v` on an insertion-ordered dict: overwrite in place if
the key is present, otherwise append at the end. -/
def dictSet : Dict → String → Value → Dict
  | [], k, v => [(k, v)]
  | p :: ps, k, v => if p.1 = k then (k, v) :: ps else p :: dictSet ps k v

/-- Python `d.get(k)`: the value stored at the first occurrence of `k`. -/
def dictGet : Dict → String → Option Value
  | [], _ => none
  | p :: ps, k => if p.1 = k then some p.2 else dictGet ps k

/-- Python `d.update(es)`: set every entry of `es` in order. -/
def dictUpdate (d : Dict) (es : Dict) : Dict :=
  es.foldl (fun acc p => dictSet acc p.1 p.2) d

/-- Kernel-computable exact division of a rational by a natural number
(Python `x / n` on floats, modelled exactly). -/
def qdivNat (a : ℚ) (n : ℕ) : ℚ := mkRat a.num (a.den * n)

/-- Kernel-computable exact product of two rationals. -/
def qmul (a b : ℚ) : ℚ := mkRat (a.num * b.num) (a.den * b.den)

/-- Kernel-computable exact difference of two rationals. -/
def qsub (a b : ℚ) : ℚ := mkRat (a.num * b.den - a.den * b.num) (a.den * b.den)

/-- Kernel-computable absolute value of a rational. -/
def qabs (a : ℚ) : ℚ := if a.num < 0 then mkRat (-a.num) a.den else a

/-- Kernel-computable product of a rational with a natural number. -/
def qmulNat (a : ℚ) (n : ℕ) : ℚ := mkRat (a.num * n) a.den

/-- Python 3 `round` on an exact rational: nearest integer, ties to even.
Computed on the numerator and denominator with integer arithmetic. -/
def pyRound (q : ℚ) : ℤ :=
  let f := q.num / (q.den : ℤ)
  let r := q.num % (q.den : ℤ)
  if 2 * r < (q.den : ℤ) then f
  else if (q.den : ℤ) < 2 * r then f + 1
  else if f % 2 = 0 then f else f + 1

/-- `_feed_options` (plugin.py lines 188-199): encode the feed-after
distance policy into the partial attribute set for the printer. -/
def feed_options (feed_after_mm : ℚ) : Dict :=
  if feed_after_mm ≤ 0 then
    [("FeedWhere", Value.str "None")]
  else
    let steps : ℤ := max 1 (min 15 (pyRound (qdivNat feed_after_mm 3)))
    let dist_mm : ℤ := steps * 3
    let dist_key : String := toString (steps - 1) ++ "feed" ++ toString dist_mm ++ "mm"
    [("FeedWhere", Value.str "AfterJob"), ("FeedDist", Value.str dist_key)]

/-- Python whitespace test for `str.strip` and the `\s` regex class
(`[ \t\n\r\v\f]`, restricted to the ASCII range exercised here). -/
def pyIsSpace (c : Char) : Bool :=
  c == ' ' || c == '\t' || c == '\n' || c == '\r' || c == '\x0b' || c == '\x0c'

/-- Line-break characters of Python `str.splitlines` other than
`'\r'` (which is handled together with `"\r\n"` separately). -/
def isLineBreakChar (c : Char) : Bool :=
  c == '\n' || c == '\x0b' || c == '\x0c' || c == '\x1c' || c == '\x1d' ||
    c == '\x1e' || c == '\x85' || c == '\u2028' || c == '\u2029'

/-- Worker for `pySplitlines`: current partial line is carried reversed. -/
def splitlinesAux : List Char → List Char → List String
  | [], acc => if acc.isEmpty then [] else [String.mk acc.reverse]
  | '\r' :: '\n' :: rest, acc => String.mk acc.reverse :: splitlinesAux rest []
  | c :: rest, acc =>
    if c == '\r' || isLineBreakChar c then
      String.mk acc.reverse :: splitlinesAux rest []
    else
      splitlinesAux rest (c :: acc)

/-- Python `str.splitlines()`: split on line boundaries, no trailing
empty line for a trailing newline. -/
def pySplitlines (s : String) : List String := splitlinesAux s.toList []

/-- Worker for `pySplitComma`. -/
def splitCommaAux : List Char → List Char → List String
  | [], acc => [String.mk acc.reverse]
  | c :: rest, acc =>
    if c == ',' then String.mk acc.reverse :: splitCommaAux rest []
    else splitCommaAux rest (c :: acc)

/-- Python `str.split(",")`: split on every comma, keeping empty parts. -/
def pySplitComma (s : String) : List String := splitCommaAux s.toList []

/-- Python `str.strip()`: drop leading and trailing whitespace. -/
def pyStrip (s : String) : String :=
  String.mk (((s.toList.dropWhile pyIsSpace).reverse.dropWhile pyIsSpace).reverse)

/-- Python `str.lower()` (ASCII case folding). -/
def pyLower (s : String) : String := String.mk (s.toList.map Char.toLower)

/-- Python `token.split("=", 1)`: the part before the first `'='` and
the part after it (the token is only split this way when it contains
an `'='`). -/
def splitFirstEq (s : String) : String × String :=
  let cs := s.toList
  (String.mk (cs.takeWhile (fun c => c != '=')),
   String.mk ((cs.dropWhile (fun c => c != '=')).drop 1))

/-- Decimal digits to a natural number (most significant first). -/
def digitsToNat (ds : List Char) : ℕ :=
  ds.foldl (fun a c => a * 10 + (c.toNat - 48)) 0

/-- `re.fullmatch(r"-?\d+", value)`: an optional leading minus followed
by one or more digits, spanning the entire string. -/
def isPyIntLit (s : String) : Bool :=
  let cs := s.toList
  let ds := if cs.head? == some '-' then cs.tail else cs
  !ds.isEmpty && ds.all Char.isDigit

/-- Python `int(value)` on a string accepted by `isPyIntLit`. -/
def pyIntVal (s : String) : ℤ :=
  let cs := s.toList
  if cs.head? == some '-' then -(digitsToNat cs.tail : ℤ) else (digitsToNat cs : ℤ)

/-- Value typing of `_parse_job_options` (plugin.py lines 129-137):
case-insensitive booleans, then whole-string integers, then strings. -/
def classifyValue (value : String) : Value :=
  let v_lower := pyLower value
  if v_lower = "true" then Value.bool true
  else if v_lower = "false" then Value.bool false
  else if isPyIntLit value then Value.int (pyIntVal value)
  else Value.str value

/-- A wire-type tag of `pyipp` (`IppTag`); only the constructors the
plugin mentions are distinguished. -/
inductive IppTag where
  | KEYWORD
  | BOOLEAN
  | INTEGER
  | other (code : ℕ)
  deriving DecidableEq, Repr

/-- `pyipp.serializer.ATTRIBUTE_TAG_MAP` as an association list. -/
abbrev Registry := List (String × IppTag)

/-- Python `r.get(k)` on the tag registry. -/
def tagGet : Registry → String → Option IppTag
  | [], _ => none
  | p :: ps, k => if p.1 = k then some p.2 else tagGet ps k

/-- Python `dict.setdefault(k, t)`: insert only if the key is absent. -/
def tagSetdefault (r : Registry) (k : String) (t : IppTag) : Registry :=
  if (tagGet r k).isSome then r else r ++ [(k, t)]

/-- Module-level seeding of `ATTRIBUTE_TAG_MAP` (plugin.py lines 21-24). -/
def seedTagMap (base : Registry) : Registry :=
  tagSetdefault
    (tagSetdefault
      (tagSetdefault
        (tagSetdefault base "TrimMode" IppTag.KEYWORD)
        "BlankSpace" IppTag.BOOLEAN)
      "FeedWhere" IppTag.KEYWORD)
    "FeedDist" IppTag.KEYWORD

/-- Tokenization of `_parse_job_options` (plugin.py lines 112-114):
split into lines, split each line on commas, strip every part. -/
def raw_tokens (text : String) : List String :=
  (pySplitlines text).foldr (fun line acc => (pySplitComma line).map pyStrip ++ acc) []

/-- One iteration of the token loop of `_parse_job_options`
(plugin.py lines 116-141), acting on the pair
(`ATTRIBUTE_TAG_MAP`, `result`). -/
def jobOptionStep (st : Registry × Dict) (token : String) : Registry × Dict :=
  if token = "" then st
  else if token.toList.contains '=' = false then st
  else
    let kv := splitFirstEq token
    let key := pyStrip kv.1
    let value := pyStrip kv.2
    if key = "" then st
    else if pyLower value = "none" then st
    else
      (tagSetdefault st.1 key IppTag.KEYWORD, dictSet st.2 key (classifyValue value))

/-- `_parse_job_options` (plugin.py lines 107-143) together with its
side effect on the process-wide `ATTRIBUTE_TAG_MAP`, which enters as
`reg` and leaves as the first component. -/
def parse_job_options_run (reg : Registry) (text : String) : Registry × Dict :=
  if text = "" then (reg, [])
  else (raw_tokens text).foldl jobOptionStep (reg, [])

/-- The return value of `_parse_job_options` (independent of the
registry contents). -/
def parse_job_options (text : String) : Dict :=
  (parse_job_options_run [] text).2

/-- The decision taken for a single trimmed token, as §4.3 of the spec
words it: `none` when the token is ignored or suppressed, otherwise the
key/value pair that is written to the result. -/
def tokenEntry (token : String) : Option (String × Value) :=
  if token = "" then none
  else if token.toList.contains '=' = false then none
  else
    let kv := splitFirstEq token
    let key := pyStrip kv.1
    let value := pyStrip kv.2
    if key = "" then none
    else if pyLower value = "none" then none
    else some (key, classifyValue value)

/-- The §4.3 contract as a pipeline: tokenize, classify each token
independently, then fold the surviving entries left to right with
last-write-wins. -/
def parse_job_options_spec (text : String) : Dict :=
  ((raw_tokens text).filterMap tokenEntry).foldl (fun d p => dictSet d p.1 p.2) []

/-- Python `s.rstrip(c)` for a single strip character. -/
def rstripChar (s : String) (c : Char) : String :=
  String.mk ((s.toList.reverse.dropWhile (fun x => x == c)).reverse)

/-- `_format_mm` (plugin.py lines 145-148): `f"{value:.2f}"`, then strip
trailing zeros and a trailing decimal point, with `"0"` for an empty
result.  The 2-digit rounding of `%.2f` is round-half-to-even, computed
here on the exact magnitude (half-even rounding commutes with `abs`). -/
def format_mm (value : ℚ) : String :=
  let n : ℤ := pyRound (qmulNat (qabs value) 100)
  let m : ℕ := n.toNat
  let frac : ℕ := m % 100
  let fracStr : String := if frac < 10 then "0" ++ toString frac else toString frac
  let base : String :=
    (if value.num < 0 then "-" else "") ++ toString (m / 100) ++ "." ++ fracStr
  let s1 := rstripChar base '0'
  let s2 := rstripChar s1 '.'
  if s2 = "" then "0" else s2

/-- Points to millimeters: `pt * 25.4 / 72.0` (plugin.py lines 157, 176). -/
def ptToMm (pt : ℚ) : ℚ := qdivNat (qmul pt (mkRat 254 10)) 72

/-- Consume an exact literal prefix, or fail. -/
def dropLit : List Char → List Char → Option (List Char)
  | [], cs => some cs
  | _ :: _, [] => none
  | l :: ls, c :: cs => if c == l then dropLit ls cs else none

/-- Match `-?\d+(?:\.\d+)?` at the start of `cs`, returning the exact
numeric value (Python later applies `float(...)` to the matched text)
and the rest of the input.  Greedy matching coincides with the regex
semantics here because digits, `'.'` and the following whitespace are
disjoint. -/
def matchNum (cs : List Char) : Option (ℚ × List Char) :=
  let sc : ℤ × List Char := if cs.head? == some '-' then (-1, cs.tail) else (1, cs)
  let ds := sc.2.takeWhile Char.isDigit
  if ds.isEmpty then none
  else
    let cs2 := sc.2.dropWhile Char.isDigit
    match cs2 with
    | '.' :: cs3 =>
        let fs := cs3.takeWhile Char.isDigit
        if fs.isEmpty then some (mkRat (sc.1 * digitsToNat ds) 1, cs2)
        else
          some (mkRat (sc.1 * (digitsToNat ds * 10 ^ fs.length + digitsToNat fs)) (10 ^ fs.length),
            cs3.dropWhile Char.isDigit)
    | _ => some (mkRat (sc.1 * digitsToNat ds) 1, cs2)

/-- `\s*`: skip any whitespace. -/
def skipSpaces (cs : List Char) : List Char := cs.dropWhile pyIsSpace

/-- `\s+`: require at least one whitespace character, then skip the rest. -/
def reqSpace (cs : List Char) : Option (List Char) :=
  match cs with
  | c :: rest => if pyIsSpace c then some (rest.dropWhile pyIsSpace) else none
  | [] => none

/-- Match the pattern
`/MediaBox\s*\[\s*(num)\s+(num)\s+(num)\s+(num)\s*\]` of
`_pdf_media_auto` (plugin.py lines 164-167) at the start of the input. -/
def matchMediaBoxAt (cs : List Char) : Option (ℚ × ℚ × ℚ × ℚ) := do
  let cs ← dropLit "/MediaBox".toList cs
  let cs := skipSpaces cs
  let cs ← dropLit ['['] cs
  let cs := skipSpaces cs
  let (x1, cs) ← matchNum cs
  let cs ← reqSpace cs
  let (y1, cs) ← matchNum cs
  let cs ← reqSpace cs
  let (x2, cs) ← matchNum cs
  let cs ← reqSpace cs
  let (y2, cs) ← matchNum cs
  let cs := skipSpaces cs
  let _ ← dropLit [']'] cs
  some (x1, y1, x2, y2)

/-- `re.search`: the leftmost match of the MediaBox pattern. -/
def findMediaBox : List Char → Option (ℚ × ℚ × ℚ × ℚ)
  | [] => none
  | c :: rest =>
    match matchMediaBoxAt (c :: rest) with
    | some r => some r
    | none => findMediaBox rest

/-- `_pdf_media_auto` (plugin.py lines 150-178).  The structured
`pypdf` path is external code, abstracted as an oracle `structuredBox`
returning the first page's MediaBox floats `(left, right, bottom, top)`
when `PdfReader` succeeds on the payload with a nonempty page list, and
`none` when that path fails for any reason (the `except` / empty-pages
fallthrough). -/
def pdf_media_auto (structuredBox : String → Option (ℚ × ℚ × ℚ × ℚ))
    (payload : String) : String :=
  match structuredBox payload with
  | some (l, r, b, t) =>
      "Custom." ++ format_mm (ptToMm (qabs (qsub r l))) ++ "x"
        ++ format_mm (ptToMm (qabs (qsub t b))) ++ "mm"
  | none =>
    match findMediaBox payload.toList with
    | none => ""
    | some (x1, y1, x2, y2) =>
        "Custom." ++ format_mm (ptToMm (qabs (qsub x2 x1))) ++ "x"
          ++ format_mm (ptToMm (qabs (qsub y2 y1))) ++ "mm"

/-- Python `a or b` on strings (empty string is falsy). -/
def pyOrStr (a b : String) : String := if a = "" then b else a

/-- `_resolve_media` (plugin.py lines 180-186). -/
def resolve_media (structuredBox : String → Option (ℚ × ℚ × ℚ × ℚ))
    (media_value : String) (payload : String) : String :=
  let media := pyStrip (pyOrStr media_value "")
  if media = "" then ""
  else if pyLower media = "auto" then pdf_media_auto structuredBox payload
  else media

/-- The result of `read()` on a stream-like label object. -/
inductive StreamContent where
  | text (s : String)
  | bin (b : List ℕ)
  deriving DecidableEq, Repr

/-- The runtime shape of the `label` argument of `_as_bytes`
(plugin.py lines 80-102): Python `None`, `bytes`, `bytearray`, `str`,
an object with a `read` attribute, or anything else. -/
inductive Payload where
  | none
  | bytes (b : List ℕ)
  | bytearray (b : List ℕ)
  | str (s : String)
  | stream (content : StreamContent)
  | other (typeName : String)
  deriving DecidableEq, Repr

/-- The two error exits of `_as_bytes`: `ValueError` (spec
`InvalidInput`) and `TypeError` (spec `UnsupportedPayloadType`). -/
inductive PayloadError where
  | invalidInput (msg : String)
  | unsupportedPayloadType
  deriving DecidableEq, Repr

/-- UTF-8 encoding of one character (`str.encode("utf-8")`). -/
def utf8Char (c : Char) : List ℕ :=
  let n := c.toNat
  if n < 128 then [n]
  else if n < 2048 then [192 + n / 64, 128 + n % 64]
  else if n < 65536 then [224 + n / 4096, 128 + n / 64 % 64, 128 + n % 64]
  else [240 + n / 262144, 128 + n / 4096 % 64, 128 + n / 64 % 64, 128 + n % 64]

/-- UTF-8 encoding of a Python string. -/
def utf8Encode (s : String) : List ℕ :=
  s.toList.foldr (fun c acc => utf8Char c ++ acc) []

/-- `_as_bytes` (plugin.py lines 80-102).  `fs` models the filesystem:
`fs p = some content` when `os.path.exists(p)` holds and reading `p`
yields `content`, `none` when the path does not exist. -/
def as_bytes (fs : String → Option (List ℕ)) : Payload → Except PayloadError (List ℕ)
  | Payload.none => Except.error (PayloadError.invalidInput "No label payload provided")
  | Payload.bytes b => Except.ok b
  | Payload.bytearray b => Except.ok b
  | Payload.str s =>
      match fs s with
      | some content => Except.ok content
      | Option.none => Except.ok (utf8Encode s)
  | Payload.stream (StreamContent.text s) => Except.ok (utf8Encode s)
  | Payload.stream (StreamContent.bin b) => Except.ok b
  | Payload.other _ => Except.error PayloadError.unsupportedPayloadType

/-- Python truthiness of a payload value (`bool(x)`); empty `bytes`,
`bytearray` and `str` are falsy, `None` is falsy, objects are truthy. -/
def Payload.truthy : Payload → Bool
  | Payload.none => false
  | Payload.bytes b => !b.isEmpty
  | Payload.bytearray b => !b.isEmpty
  | Payload.str s => !(s == "")
  | Payload.stream _ => true
  | Payload.other _ => true

/-- Python `a or b`: `a` when truthy, otherwise `b`. -/
def pyOrPayload (a b : Payload) : Payload := if a.truthy then a else b

/-- The payload selection chain of `print_label` (plugin.py 237-242):
`kwargs.get("pdf_data") or kwargs.get("label") or kwargs.get("data")
or kwargs.get("payload")`, with `Payload.none` standing both for an
absent keyword and for a supplied Python `None`. -/
def select_label (pdf_data label data payload : Payload) : Payload :=
  pyOrPayload (pyOrPayload (pyOrPayload pdf_data label) data) payload

/-- The job-attribute assembly of `_print_via_ipp`
(plugin.py lines 216-223): base mapping, then `update` with the parsed
job options, then `update` with the feed options, then `media` if the
resolved media identifier is non-empty. -/
def assemble_job_attrs (reg : Registry) (title : String) (copies : ℤ)
    (job_options_text : String) (feed_after_mm : ℚ) (media_resolved : String) : Dict :=
  let base : Dict := [("job-name", Value.str title), ("copies", Value.int copies)]
  let d1 := dictUpdate base (parse_job_options_run reg job_options_text).2
  let d2 := dictUpdate d1 (feed_options feed_after_mm)
  if media_resolved = "" then d2 else dictSet d2 "media" (Value.str media_resolved)

/-- Python `float(s)` on the decimal grammar the plugin's settings use
(optional surrounding whitespace, optional sign, digits with an
optional fractional part); `none` models a raised `ValueError`.
Exponent/`inf`/`nan`/underscore forms of the full grammar are not
modelled. -/
def pyFloat (s : String) : Option ℚ :=
  let t := (pyStrip s).toList
  let sc : ℤ × List Char :=
    if t.head? == some '-' then (-1, t.tail)
    else if t.head? == some '+' then (1, t.tail)
    else (1, t)
  let ip := sc.2.takeWhile Char.isDigit
  let rest := sc.2.dropWhile Char.isDigit
  match rest with
  | [] => if ip.isEmpty then none else some (mkRat (sc.1 * digitsToNat ip) 1)
  | '.' :: fp =>
      if fp.all Char.isDigit ∧ (ip.isEmpty = false ∨ fp.isEmpty = false) then
        some (mkRat (sc.1 * (digitsToNat ip * 10 ^ fp.length + digitsToNat fp)) (10 ^ fp.length))
      else none
  | _ => none

/-- `media = options.get("media") or self.get_setting("DEFAULT_MEDIA")`
(plugin.py line 245); `req = none` models an absent key, and Python
`or` falls through on an empty supplied string. -/
def effective_media (req : Option String) (default_media : String) : String :=
  match req with
  | some s => if s = "" then default_media else s
  | Option.none => default_media

/-- `feed_after_mm = float(options.get("feed_after_mm",
self.get_setting("DEFAULT_FEED_AFTER_MM") or 0))`
(plugin.py lines 248-250): presence-based `dict.get`, with the setting
string falling back to `0` when empty before `float(...)`. -/
def effective_feed_after_mm (req : Option ℚ) (default_feed_setting : String) : Option ℚ :=
  match req with
  | some q => some q
  | Option.none =>
      if default_feed_setting = "" then some 0 else pyFloat default_feed_setting

/-- `job_options_text = options.get("job_options") or
self.get_setting("JOB_OPTIONS") or ""` (plugin.py line 251). -/
def effective_job_options (req : Option String) (setting : String) : String :=
  match req with
  | some s => if s = "" then pyOrStr setting "" else s
  | Option.none => pyOrStr setting ""

/-- Outcome of `asyncio.run(self._print_via_ipp(...))`
(plugin.py lines 271-283): `ok` for a normal return, `error msg` for a
raised exception whose string form is `msg`. -/
inductive SubmitOutcome where
  | ok
  | error (msg : String)
  deriving DecidableEq, Repr

/-- The try/except wrapper around submission in `print_label`
(plugin.py lines 270-286): every failure is re-raised as the single
`RuntimeError(f"IPP print failed: {exc}")`; success returns `None`. -/
def print_label_submit (outcome : SubmitOutcome) : Except String Unit :=
  match outcome with
  | SubmitOutcome.ok => Except.ok ()
  | SubmitOutcome.error msg => Except.error ("IPP print failed: " ++ msg)

end DevtermPlugin

namespace DevtermPlugin

@[simp] theorem dictGet_nil (k : String) : dictGet [] k = none := rfl

theorem dictGet_set_self (d : Dict) (k : String) (v : Value) :
    dictGet (dictSet d k v) k = some v := by
  induction d with
  | nil => simp [dictSet, dictGet]
  | cons p ps ih =>
    by_cases h : p.1 = k <;> simp [dictSet, dictGet, h, ih]

theorem dictGet_set_ne (d : Dict) (k k' : String) (v : Value) (h : k' ≠ k) :
    dictGet (dictSet d k v) k' = dictGet d k' := by
  have h' : ¬ k = k' := fun hh => h hh.symm
  induction d with
  | nil => simp [dictSet, dictGet, h']
  | cons p ps ih =>
    by_cases hp : p.1 = k
    · simp [dictSet, dictGet, hp, h']
    · by_cases hp' : p.1 = k' <;> simp [dictSet, dictGet, hp, hp', ih, h]

theorem qdivNat_eq (a : ℚ) (n : ℕ) : qdivNat a n = a / n := by
  rw [qdivNat, Rat.mkRat_eq_div]
  push_cast
  rw [← div_div, Rat.num_div_den]

theorem qmul_eq (a b : ℚ) : qmul a b = a * b := by
  rw [qmul, Rat.mkRat_eq_div]
  push_cast
  rw [← div_mul_div_comm, Rat.num_div_den, Rat.num_div_den]

theorem qsub_eq (a b : ℚ) : qsub a b = a - b := by
  rw [qsub, Rat.mkRat_eq_div]
  push_cast
  rw [← div_sub_div _ _ (by exact_mod_cast a.den_nz) (by exact_mod_cast b.den_nz)]
  rw [Rat.num_div_den, Rat.num_div_den]

theorem qabs_eq (a : ℚ) : qabs a = |a| := by
  rw [qabs]
  by_cases h : a.num < 0
  · have ha : a < 0 := by
      rw [← Rat.num_neg]
      exact h
    simp only [if_pos h, abs_of_neg ha, Rat.mkRat_eq_div]
    push_cast
    rw [neg_div, Rat.num_div_den]
  · have ha : 0 ≤ a := by
      rw [← Rat.num_nonneg]
      omega
    simp [h, abs_of_nonneg ha]

theorem qmulNat_eq (a : ℚ) (n : ℕ) : qmulNat a n = a * n := by
  rw [qmulNat, Rat.mkRat_eq_div]
  push_cast
  rw [mul_div_right_comm, Rat.num_div_den]

/-- C1: the Feed Policy Encoder emits `{FeedWhere: "None"}` for a
non-positive distance and otherwise `{FeedWhere: "AfterJob",
FeedDist: "<steps-1>feed<3*steps>mm"}` with
`steps = round(feedAfterMm / 3)` clamped to `[1, 15]`; in particular
`encode(0)`, `encode(7)` and `encode(100)` give the attribute sets the
spec lists. -/
theorem feed_options_claim :
    (∀ q : ℚ, feed_options q =
      if q ≤ 0 then
        [("FeedWhere", Value.str "None")]
      else
        [("FeedWhere", Value.str "AfterJob"),
         ("FeedDist", Value.str
           (toString (min 15 (max 1 (pyRound (q / 3))) - 1) ++ "feed" ++
            toString (3 * min 15 (max 1 (pyRound (q / 3)))) ++ "mm"))]) ∧
    feed_options 0 = [("FeedWhere", Value.str "None")] ∧
    feed_options 7 = [("FeedWhere", Value.str "AfterJob"), ("FeedDist", Value.str "1feed6mm")] ∧
    feed_options 100
      = [("FeedWhere", Value.str "AfterJob"), ("FeedDist", Value.str "14feed45mm")] := by
  refine ⟨?_, by decide, by decide, by decide⟩
  intro q
  have hq3 : qdivNat q 3 = q / 3 := qdivNat_eq q 3
  have hswap : max 1 (min 15 (pyRound (q / 3))) = min 15 (max 1 (pyRound (q / 3))) := by
    omega
  rw [feed_options, hq3, hswap]
  split
  · rfl
  · rw [mul_comm]

theorem foldl_jobOptionStep_snd (toks : List String) (reg : Registry) (d : Dict) :
    (toks.foldl jobOptionStep (reg, d)).2
      = (toks.filterMap tokenEntry).foldl (fun acc p => dictSet acc p.1 p.2) d := by
  induction toks generalizing reg d with
  | nil => rfl
  | cons t ts ih =>
    simp only [List.foldl_cons, List.filterMap_cons]
    by_cases h1 : t = ""
    · simp only [jobOptionStep, tokenEntry, if_pos h1, ih]
    · by_cases h2 : t.toList.contains '=' = false
      · simp only [jobOptionStep, tokenEntry, if_neg h1, if_pos h2, ih]
      · by_cases h3 : pyStrip (splitFirstEq t).1 = ""
        · simp only [jobOptionStep, tokenEntry, if_neg h1, if_neg h2, if_pos h3, ih]
        · by_cases h4 : pyLower (pyStrip (splitFirstEq t).2) = "none"
          · simp only [jobOptionStep, tokenEntry, if_neg h1, if_neg h2, if_neg h3, if_pos h4, ih]
          · simp only [jobOptionStep, tokenEntry, if_neg h1, if_neg h2, if_neg h3, if_neg h4,
              List.foldl_cons, ih]

/-- C2: the Job Option Parser realizes the §4.3 grammar pipeline
(split into lines, split on commas, trim, ignore tokens without `=`,
split on the first `=`, trim both sides, ignore empty keys, drop
case-insensitive "none" values, type values as bool/int/string) with
later tokens overwriting earlier ones, and yields the three example
mappings of the spec. -/
theorem parse_job_options_claim :
    (∀ text, parse_job_options text = parse_job_options_spec text) ∧
    (∀ (d : Dict) (k : String) (v : Value), dictGet (dictSet d k v) k = some v) ∧
    parse_job_options "a=1,b=true,c=none,d=x=y"
      = [("a", Value.int 1), ("b", Value.bool true), ("d", Value.str "x=y")] ∧
    parse_job_options "key=TRUE" = [("key", Value.bool true)] ∧
    parse_job_options "key=true" = [("key", Value.bool true)] := by
  refine ⟨?_, dictGet_set_self, by decide, by decide, by decide⟩
  intro text
  rw [parse_job_options, parse_job_options_run, parse_job_options_spec]
  by_cases h : text = ""
  · subst h
    rfl
  · rw [if_neg h, foldl_jobOptionStep_snd]

theorem tagGet_append (r1 r2 : Registry) (k : String) :
    tagGet (r1 ++ r2) k = match tagGet r1 k with
      | some t => some t
      | none => tagGet r2 k := by
  induction r1 with
  | nil => simp [tagGet]
  | cons p ps ih =>
    by_cases h : p.1 = k <;> simp [tagGet, h, ih]

theorem tagGet_setdefault_preserve (r : Registry) (k : String) (t : IppTag)
    (k' : String) (t' : IppTag) (h : tagGet r k' = some t') :
    tagGet (tagSetdefault r k t) k' = some t' := by
  rw [tagSetdefault]
  split
  · exact h
  · rw [tagGet_append, h]

theorem tagGet_setdefault_isSome (r : Registry) (k : String) (t : IppTag) :
    (tagGet (tagSetdefault r k t) k).isSome := by
  rw [tagSetdefault]
  split
  · next hs => exact hs
  · next hs =>
    rw [tagGet_append]
    cases hget : tagGet r k with
    | some u => simp [hget] at hs
    | none => simp [tagGet]

theorem tagGet_setdefault_ne (r : Registry) (k : String) (t : IppTag)
    (k' : String) (h : k' ≠ k) (hn : tagGet r k' = none) :
    tagGet (tagSetdefault r k t) k' = none := by
  rw [tagSetdefault]
  split
  · exact hn
  · have h' : ¬ k = k' := fun hh => h hh.symm
    rw [tagGet_append, hn]
    simp [tagGet, h']

theorem jobOptionStep_cases (st : Registry × Dict) (tok : String) :
    jobOptionStep st tok = st ∨
    ∃ key v, jobOptionStep st tok
        = (tagSetdefault st.1 key IppTag.KEYWORD, dictSet st.2 key v) := by
  by_cases h1 : tok = ""
  · left; simp only [jobOptionStep, if_pos h1]
  · by_cases h2 : tok.toList.contains '=' = false
    · left; simp only [jobOptionStep, if_neg h1, if_pos h2]
    · by_cases h3 : pyStrip (splitFirstEq tok).1 = ""
      · left; simp only [jobOptionStep, if_neg h1, if_neg h2, if_pos h3]
      · by_cases h4 : pyLower (pyStrip (splitFirstEq tok).2) = "none"
        · left; simp only [jobOptionStep, if_neg h1, if_neg h2, if_neg h3, if_pos h4]
        · right
          exact ⟨pyStrip (splitFirstEq tok).1, classifyValue (pyStrip (splitFirstEq tok).2),
            by simp only [jobOptionStep, if_neg h1, if_neg h2, if_neg h3, if_neg h4]⟩

theorem foldl_step_tag_preserve (toks : List String) :
    ∀ (st : Registry × Dict) (k : String) (t : IppTag),
      tagGet st.1 k = some t → tagGet (toks.foldl jobOptionStep st).1 k = some t := by
  induction toks with
  | nil => intro st k t h; exact h
  | cons tok ts ih =>
    intro st k t h
    simp only [List.foldl_cons]
    apply ih
    rcases jobOptionStep_cases st tok with hc | ⟨key, v, hc⟩
    · rw [hc]; exact h
    · rw [hc]; exact tagGet_setdefault_preserve _ _ _ _ _ h

theorem foldl_step_tag_new (toks : List String) :
    ∀ (st : Registry × Dict) (k : String), tagGet st.1 k = none →
      tagGet (toks.foldl jobOptionStep st).1 k = none ∨
      tagGet (toks.foldl jobOptionStep st).1 k = some IppTag.KEYWORD := by
  induction toks with
  | nil => intro st k h; left; exact h
  | cons tok ts ih =>
    intro st k h
    simp only [List.foldl_cons]
    rcases jobOptionStep_cases st tok with hc | ⟨key, v, hc⟩
    · rw [hc]; exact ih st k h
    · rw [hc]
      by_cases hk : k = key
      · subst hk
        right
        apply foldl_step_tag_preserve
        show tagGet (tagSetdefault st.1 k IppTag.KEYWORD) k = some IppTag.KEYWORD
        rw [tagSetdefault, if_neg (by simp [h]), tagGet_append, h]
        simp [tagGet]
      · exact ih _ k (tagGet_setdefault_ne _ _ _ _ hk h)

theorem foldl_step_registered (toks : List String) :
    ∀ (st : Registry × Dict),
      (∀ k, (dictGet st.2 k).isSome → (tagGet st.1 k).isSome) →
      ∀ k, (dictGet ((toks.foldl jobOptionStep st).2) k).isSome →
        (tagGet ((toks.foldl jobOptionStep st).1) k).isSome := by
  induction toks with
  | nil => intro st h k hk; exact h k hk
  | cons tok ts ih =>
    intro st h k hk
    simp only [List.foldl_cons] at hk ⊢
    rcases jobOptionStep_cases st tok with hc | ⟨key, v, hc⟩
    · rw [hc] at hk ⊢; exact ih st h k hk
    · rw [hc] at hk ⊢
      refine ih _ ?_ k hk
      intro k' hk'
      by_cases hkey : k' = key
      · subst hkey; exact tagGet_setdefault_isSome _ _ _
      · rw [dictGet_set_ne _ _ _ _ hkey] at hk'
        have := h k' hk'
        cases hget : tagGet st.1 k' with
        | none => rw [hget] at this; simp at this
        | some u => rw [tagGet_setdefault_preserve _ _ _ _ _ hget]; rfl

/-- C7: running the Job Option Parser never changes the tag of a key
already present in the tag registry, registers every key of the parsed
result, and gives any newly registered key the default `KEYWORD` tag. -/
theorem parse_job_options_registry_claim (reg : Registry) (text : String) :
    (∀ k t, tagGet reg k = some t →
      tagGet (parse_job_options_run reg text).1 k = some t) ∧
    (∀ k, (dictGet (parse_job_options_run reg text).2 k).isSome →
      (tagGet (parse_job_options_run reg text).1 k).isSome) ∧
    (∀ k, tagGet reg k = none →
      tagGet (parse_job_options_run reg text).1 k = none ∨
      tagGet (parse_job_options_run reg text).1 k = some IppTag.KEYWORD) := by
  rw [parse_job_options_run]
  by_cases h : text = ""
  · rw [if_pos h]
    refine ⟨fun k t ht => ht, fun k hk => by simp [dictGet] at hk, fun k hk => Or.inl hk⟩
  · rw [if_neg h]
    exact ⟨fun k t ht => foldl_step_tag_preserve _ _ k t ht,
      fun k hk => foldl_step_registered _ _ (fun k' hk' => by simp [dictGet] at hk') k hk,
      fun k hk => foldl_step_tag_new _ _ k hk⟩

theorem parse_job_options_registry_claim_witness :
    tagGet (parse_job_options_run [("BlankSpace", IppTag.BOOLEAN)] "a=1,BlankSpace=False").1
        "BlankSpace" = some IppTag.BOOLEAN ∧
    (tagGet (parse_job_options_run [("BlankSpace", IppTag.BOOLEAN)] "a=1,BlankSpace=False").1
        "a").isSome ∧
    (tagGet (parse_job_options_run [("BlankSpace", IppTag.BOOLEAN)] "a=1,BlankSpace=False").1
        "a" = none ∨
      tagGet (parse_job_options_run [("BlankSpace", IppTag.BOOLEAN)] "a=1,BlankSpace=False").1
        "a" = some IppTag.KEYWORD) := by
  refine ⟨(parse_job_options_registry_claim _ _).1 "BlankSpace" IppTag.BOOLEAN (by decide),
    (parse_job_options_registry_claim _ _).2.1 "a" ?_,
    (parse_job_options_registry_claim _ _).2.2 "a" (by decide)⟩
  decide

theorem ptToMm_eq (pt : ℚ) : ptToMm pt = pt * 25.4 / 72 := by
  rw [ptToMm, qdivNat_eq, qmul_eq]
  norm_num [Rat.mkRat_eq_div]

theorem ptToMm_qabs_qsub (a b : ℚ) : ptToMm (qabs (qsub a b)) = |a - b| * 25.4 / 72 := by
  rw [qsub_eq, qabs_eq, ptToMm_eq]

/-- C3: the Media Size Resolver trims the policy text; empty means "no
media attribute", a case-insensitive "auto" defers to PDF inspection,
and anything else passes through verbatim — including the two examples
of the spec. -/
theorem resolve_media_claim :
    (∀ sb mv payload,
      resolve_media sb mv payload =
        if pyStrip mv = "" then ""
        else if pyLower (pyStrip mv) = "auto" then pdf_media_auto sb payload
        else pyStrip mv) ∧
    (∀ sb payload, resolve_media sb "" payload = "") ∧
    (∀ sb payload, resolve_media sb "Custom.48x30mm" payload = "Custom.48x30mm") ∧
    (∀ sb payload, resolve_media sb "AuTo" payload = pdf_media_auto sb payload) := by
  refine ⟨?_, fun sb payload => rfl, fun sb payload => rfl, fun sb payload => rfl⟩
  intro sb mv payload
  by_cases h : mv = ""
  · subst h; rfl
  · simp only [resolve_media, pyOrStr, if_neg h]

/-- C4: when the structured PDF parse fails, `_pdf_media_auto` takes
the first raw `/MediaBox [x1 y1 x2 y2]` match, converts
`abs(x2-x1)` / `abs(y2-y1)` points to millimeters via `* 25.4 / 72`,
and formats `Custom.<W>x<H>mm` with up-to-2-decimal formatting
(trailing zeros and point stripped, "0" for an empty result); with no
match it returns the empty string. -/
theorem pdf_media_auto_fallback_claim :
    (∀ sb payload, sb payload = none →
      pdf_media_auto sb payload =
        match findMediaBox payload.toList with
        | none => ""
        | some (x1, y1, x2, y2) =>
            "Custom." ++ format_mm (|x2 - x1| * 25.4 / 72) ++ "x"
              ++ format_mm (|y2 - y1| * 25.4 / 72) ++ "mm") ∧
    format_mm 48 = "48" ∧
    format_mm (47.5 : ℚ) = "47.5" ∧
    format_mm 0 = "0" ∧
    pdf_media_auto (fun _ => none) "x /MediaBox [ 0 0 136 85 ] y" = "Custom.47.98x29.99mm" ∧
    pdf_media_auto (fun _ => none) "no box here" = "" := by
  have h475 : (47.5 : ℚ) = mkRat 95 2 := by norm_num [Rat.mkRat_eq_div]
  refine ⟨?_, by decide, by rw [h475]; decide, by decide, by decide, by decide⟩
  intro sb payload h
  simp only [pdf_media_auto, h]
  cases hfind : findMediaBox payload.toList with
  | none => rfl
  | some r =>
    obtain ⟨x1, y1, x2, y2⟩ := r
    simp only [ptToMm_qabs_qsub]

theorem pdf_media_auto_fallback_claim_witness :
    pdf_media_auto (fun _ => none) " /MediaBox [0 0 72 144]" =
      (match findMediaBox " /MediaBox [0 0 72 144]".toList with
        | none => ""
        | some (x1, y1, x2, y2) =>
            "Custom." ++ format_mm (|x2 - x1| * 25.4 / 72) ++ "x"
              ++ format_mm (|y2 - y1| * 25.4 / 72) ++ "mm") :=
  pdf_media_auto_fallback_claim.1 (fun _ => none) " /MediaBox [0 0 72 144]" rfl

theorem dictUpdate_nil (d : Dict) : dictUpdate d [] = d := rfl

theorem dictUpdate_cons (d : Dict) (p : String × Value) (es : Dict) :
    dictUpdate d (p :: es) = dictUpdate (dictSet d p.1 p.2) es := rfl

theorem feed_options_shape (q : ℚ) :
    feed_options q = [("FeedWhere", Value.str "None")] ∨
    ∃ b, feed_options q = [("FeedWhere", Value.str "AfterJob"), ("FeedDist", b)] := by
  rw [feed_options]
  split
  · exact Or.inl rfl
  · exact Or.inr ⟨_, rfl⟩

/-- C5: the job-attribute mapping is the base
`{job-name, copies}` updated with the parser output, then with the
feed-encoder output, then `media` only when the resolved identifier is
non-empty; later writes win, so any key the feed encoder sets holds the
feed encoder's value in the final mapping. -/
theorem assemble_job_attrs_claim :
    (∀ reg title copies jot q media, media ≠ "" →
      dictGet (assemble_job_attrs reg title copies jot q media) "media"
        = some (Value.str media)) ∧
    (∀ reg title copies jot q,
      assemble_job_attrs reg title copies jot q "" =
        dictUpdate
          (dictUpdate [("job-name", Value.str title), ("copies", Value.int copies)]
            (parse_job_options_run reg jot).2)
          (feed_options q)) ∧
    (∀ reg title copies jot q media k v,
      dictGet (feed_options q) k = some v →
      dictGet (assemble_job_attrs reg title copies jot q media) k = some v) := by
  refine ⟨?_, ?_, ?_⟩
  · intro reg title copies jot q media hm
    simp only [assemble_job_attrs, if_neg hm]
    exact dictGet_set_self _ _ _
  · intro reg title copies jot q
    rfl
  · intro reg title copies jot q media k v hv
    rcases feed_options_shape q with hf | ⟨b, hf⟩
    · rw [hf] at hv
      by_cases hk : ("FeedWhere" : String) = k
      · subst hk
        simp [dictGet] at hv
        subst hv
        simp only [assemble_job_attrs, hf, dictUpdate_cons, dictUpdate_nil]
        split
        · exact dictGet_set_self _ _ _
        · rw [dictGet_set_ne _ _ _ _ (by decide)]
          exact dictGet_set_self _ _ _
      · simp [dictGet, hk] at hv
    · rw [hf] at hv
      by_cases hk1 : ("FeedWhere" : String) = k
      · subst hk1
        simp [dictGet] at hv
        subst hv
        simp only [assemble_job_attrs, hf, dictUpdate_cons, dictUpdate_nil]
        split
        · rw [dictGet_set_ne _ _ _ _ (by decide)]
          exact dictGet_set_self _ _ _
        · rw [dictGet_set_ne _ _ _ _ (by decide), dictGet_set_ne _ _ _ _ (by decide)]
          exact dictGet_set_self _ _ _
      · by_cases hk2 : ("FeedDist" : String) = k
        · subst hk2
          simp [dictGet] at hv
          subst hv
          simp only [assemble_job_attrs, hf, dictUpdate_cons, dictUpdate_nil]
          split
          · exact dictGet_set_self _ _ _
          · rw [dictGet_set_ne _ _ _ _ (by decide)]
            exact dictGet_set_self _ _ _
        · simp [dictGet, hk1, hk2] at hv

theorem assemble_job_attrs_claim_witness :
    dictGet (assemble_job_attrs [] "t" 2 "FeedWhere=Edge" 7 "Custom.48x30mm") "media"
      = some (Value.str "Custom.48x30mm") ∧
    dictGet (assemble_job_attrs [] "t" 2 "FeedWhere=Edge" 7 "Custom.48x30mm") "FeedWhere"
      = some (Value.str "AfterJob") := by
  constructor
  · exact assemble_job_attrs_claim.1 [] "t" 2 "FeedWhere=Edge" 7 "Custom.48x30mm" (by decide)
  · exact assemble_job_attrs_claim.2.2 [] "t" 2 "FeedWhere=Edge" 7 "Custom.48x30mm"
      "FeedWhere" (Value.str "AfterJob") (by decide)

/-- C6: the Payload Normalizer fails with the "no payload provided"
`ValueError` exactly on `None`, passes byte sequences through, reads an
existing file for a path string, UTF-8-encodes any other string, reads
out stream objects (UTF-8-encoding a text read), and rejects every
other type with `TypeError`. -/
theorem as_bytes_claim :
    (∀ fs, as_bytes fs Payload.none
        = Except.error (PayloadError.invalidInput "No label payload provided")) ∧
    (∀ fs b, as_bytes fs (Payload.bytes b) = Except.ok b) ∧
    (∀ fs b, as_bytes fs (Payload.bytearray b) = Except.ok b) ∧
    (∀ fs s content, fs s = some content → as_bytes fs (Payload.str s) = Except.ok content) ∧
    (∀ fs s, fs s = Option.none → as_bytes fs (Payload.str s) = Except.ok (utf8Encode s)) ∧
    (∀ fs s, as_bytes fs (Payload.stream (StreamContent.text s)) = Except.ok (utf8Encode s)) ∧
    (∀ fs b, as_bytes fs (Payload.stream (StreamContent.bin b)) = Except.ok b) ∧
    (∀ fs t, as_bytes fs (Payload.other t) = Except.error PayloadError.unsupportedPayloadType) ∧
    (∀ fs p, as_bytes fs p = Except.error (PayloadError.invalidInput "No label payload provided")
        ↔ p = Payload.none) := by
  refine ⟨fun fs => rfl, fun fs b => rfl, fun fs b => rfl, ?_, ?_,
    fun fs s => rfl, fun fs b => rfl, fun fs t => rfl, ?_⟩
  · intro fs s content h
    simp [as_bytes, h]
  · intro fs s h
    simp [as_bytes, h]
  · intro fs p
    cases p with
    | none => simp [as_bytes]
    | bytes b => simp [as_bytes]
    | bytearray b => simp [as_bytes]
    | str s => cases hfs : fs s <;> simp [as_bytes, hfs]
    | stream c => cases c <;> simp [as_bytes]
    | other t => simp [as_bytes]

theorem as_bytes_claim_witness :
    as_bytes (fun p => if p = "label.pdf" then some [37, 80] else Option.none)
        (Payload.str "label.pdf") = Except.ok [37, 80] ∧
    as_bytes (fun _ => Option.none) (Payload.str "hi") = Except.ok (utf8Encode "hi") := by
  constructor
  · exact as_bytes_claim.2.2.2.1 _ "label.pdf" [37, 80] (by simp)
  · exact as_bytes_claim.2.2.2.2.1 (fun _ => Option.none) "hi" rfl

/-- C8 counterexample: a request that supplies `media = ""` does not
get its supplied value — Python `or` treats the empty string as absent
and the configured default ("auto" here) is used instead. -/
theorem effective_media_counterexample :
    effective_media (some "") "auto" = "auto" ∧ ("auto" : String) ≠ "" :=
  ⟨rfl, by decide⟩

/-- C8 amended: `feed_after_mm` uses the request value whenever the key
is present; `media` and `job_options` use the request value only when
it is a non-empty string, falling back to the configured default
otherwise (and `job_options` further to `""` when the setting is also
empty). -/
theorem effective_options_amended :
    (∀ m d, effective_media (some m) d = if m = "" then d else m) ∧
    (∀ d, effective_media Option.none d = d) ∧
    (∀ q s, effective_feed_after_mm (some q) s = some q) ∧
    (∀ s, effective_feed_after_mm Option.none s = if s = "" then some 0 else pyFloat s) ∧
    (∀ j s, effective_job_options (some j) s = if j = "" then pyOrStr s "" else j) ∧
    (∀ s, effective_job_options Option.none s = pyOrStr s "") :=
  ⟨fun _ _ => rfl, fun _ => rfl, fun _ _ => rfl, fun _ => rfl, fun _ _ => rfl, fun _ => rfl⟩

/-- C9: every submission failure surfaces as the single unified
`RuntimeError` carrying the underlying transport message, and a
successful submission returns nothing. -/
theorem print_label_submit_claim :
    (∀ m, print_label_submit (SubmitOutcome.error m)
        = Except.error ("IPP print failed: " ++ m)) ∧
    print_label_submit SubmitOutcome.ok = Except.ok () ∧
    (∀ o, print_label_submit o = Except.ok () ∨
      ∃ m, print_label_submit o = Except.error ("IPP print failed: " ++ m)) := by
  refine ⟨fun m => rfl, rfl, ?_⟩
  intro o
  cases o with
  | ok => exact Or.inl rfl
  | error m => exact Or.inr ⟨m, rfl⟩

/-- C10 counterexample: an empty byte payload supplied under the
`payload` keyword (the last link of the fallback chain) is selected
as-is and normalizes to `ok b""` — it is submitted as an empty
document, not rejected with the "no payload provided" error. -/
theorem select_label_empty_counterexample :
    select_label Payload.none Payload.none Payload.none (Payload.bytes []) = Payload.bytes [] ∧
    as_bytes (fun _ => Option.none) (Payload.bytes []) = Except.ok [] ∧
    (Except.ok ([] : List ℕ)
      ≠ (Except.error (PayloadError.invalidInput "No label payload provided")
          : Except PayloadError (List ℕ))) := by
  refine ⟨rfl, rfl, ?_⟩
  intro h
  exact Except.noConfusion h

/-- C10 amended: empty byte sequences are falsy and are skipped by the
truthiness chain, so `b""` under `pdf_data`, `label` or `data` (with
the later names absent) yields the "no payload provided" failure; but
the chain returns its last operand `payload` regardless of truthiness,
so `b""` under `payload` is normalized and submitted as an empty
document. -/
theorem select_label_amended :
    (∀ fs, as_bytes fs (select_label (Payload.bytes []) Payload.none Payload.none Payload.none)
        = Except.error (PayloadError.invalidInput "No label payload provided")) ∧
    (∀ fs, as_bytes fs (select_label Payload.none (Payload.bytes []) Payload.none Payload.none)
        = Except.error (PayloadError.invalidInput "No label payload provided")) ∧
    (∀ fs, as_bytes fs (select_label Payload.none Payload.none (Payload.bytes []) Payload.none)
        = Except.error (PayloadError.invalidInput "No label payload provided")) ∧
    (∀ p1 p2 p3 p4, p1.truthy = false → p2.truthy = false → p3.truthy = false →
      select_label p1 p2 p3 p4 = p4) ∧
    (∀ fs, as_bytes fs (select_label Payload.none Payload.none Payload.none (Payload.bytes []))
        = Except.ok []) := by
  refine ⟨fun fs => rfl, fun fs => rfl, fun fs => rfl, ?_, fun fs => rfl⟩
  intro p1 p2 p3 p4 h1 h2 h3
  simp [select_label, pyOrPayload, h1, h2, h3]

theorem select_label_amended_witness :
    select_label (Payload.bytes []) (Payload.str "") Payload.none (Payload.bytes [37])
      = Payload.bytes [37] :=
  select_label_amended.2.2.2.1 (Payload.bytes []) (Payload.str "") Payload.none
    (Payload.bytes [37]) rfl rfl rfl

end DevtermPlugin
